import Mathlib

/-!
Verification development for the GTD note-ingestion and hybrid-retrieval service.

The definitions below are a shallow embedding of the repository's code:
the Evernote note normalizer (`EvernoteProcessor` in `lib/evernote-processor.js`),
the store client (`GTDDatabaseClient` in `lib/gtd-database-client.js`), and the
SQL schema and functions of `migrations/005_gtd_productivity_schema.sql`.

Modelling conventions:
- JavaScript strings that may be absent are `Option String`; the JS falsy check
  `!s` treats both absence and the empty string as missing, which the embedding
  reproduces explicitly.
- A JS `Date` value is `Option String`: `some iso` is a valid date carried as its
  ISO rendering, `none` is the JS `Invalid Date` value.  `Date.prototype.toISOString`
  throws on `Invalid Date`, which the embedding renders as `Except.error`.
- SQL `REAL`/`FLOAT` scores are modelled as `ℚ`; the external text-ranking and
  vector-distance primitives of the storage engine (`ts_rank`, `@@`, `<=>`) are
  parameters of the search model, as they are consumed, not implemented, by this
  repository.
- The MD5 digest of `crypto` is external; it is modelled by a deterministic
  injective stand-in, since the code relies only on the digest being a
  deterministic function of its input.
-/

namespace GTD

/-- Character-list rendering of JS `toLowerCase` (per-character lowering). -/
def strToLower (s : String) : String :=
  String.mk (s.toList.map Char.toLower)

/-- Character-list rendering of JS `startsWith`. -/
def strStarts (s pre : String) : Bool :=
  pre.toList.isPrefixOf s.toList

/-- Character-list rendering of JS `trim` (strip whitespace at both ends). -/
def jsTrim (s : String) : String :=
  String.mk (((s.toList.dropWhile Char.isWhitespace).reverse.dropWhile
    Char.isWhitespace).reverse)

/-- Contiguous-segment test: does `pat` occur inside the list? -/
def hasSeg (pat : List Char) : List Char → Bool
  | [] => pat.isEmpty
  | c :: rest => pat.isPrefixOf (c :: rest) || hasSeg pat rest

/-- JS substring test `s.includes(pat)`. -/
def strIncludes (s pat : String) : Bool :=
  hasSeg pat.toList s.toList

/-- JS truthiness for an optional string: `undefined` and `""` are falsy. -/
def strTruthy (o : Option String) : Option String :=
  match o with
  | none => none
  | some s => if s = "" then none else some s

/-- JS `a || b` on an optional string versus a default (falsy fallback). -/
def jsOrStr (o : Option String) (dflt : String) : String :=
  (strTruthy o).getD dflt

/-! ### Date model

`EvernoteProcessor.parseDate` recognizes the compact Evernote stamp
`YYYYMMDDTHHMMSSZ` by regex, rebuilds it as `YYYY-MM-DDTHH:MM:SSZ` and hands it
to the `Date` constructor; any other string goes to the `Date` constructor
directly; an absent (falsy) value yields `new Date()`, i.e. now.  The JS `Date`
string constructor never throws: unrecognized or out-of-range input yields the
`Invalid Date` value.  `jsDateParse` below models that constructor, restricted
to the ISO shape `YYYY-MM-DDTHH:MM:SSZ` with in-range fields; every other
string is modelled as yielding `Invalid Date` (`none`), as the JS parser does
for the non-date strings considered in this development. -/

/-- Numeric value of a decimal digit character. -/
def digitVal (c : Char) : Nat := c.toNat - '0'.toNat

/-- Shape test for the ISO form `YYYY-MM-DDTHH:MM:SSZ` with in-range fields,
modelling which strings the JS `Date` constructor accepts here. -/
def isoShape : List Char → Bool
  | [y1, y2, y3, y4, '-', m1, m2, '-', d1, d2, 'T',
     h1, h2, ':', n1, n2, ':', s1, s2, 'Z'] =>
    ([y1, y2, y3, y4, m1, m2, d1, d2, h1, h2, n1, n2, s1, s2].all Char.isDigit) &&
    (let mo := digitVal m1 * 10 + digitVal m2
     let da := digitVal d1 * 10 + digitVal d2
     let ho := digitVal h1 * 10 + digitVal h2
     let mi := digitVal n1 * 10 + digitVal n2
     let se := digitVal s1 * 10 + digitVal s2
     1 ≤ mo && mo ≤ 12 && 1 ≤ da && da ≤ 31 && ho ≤ 23 && mi ≤ 59 && se ≤ 59)
  | _ => false

/-- Model of the JS `Date` string constructor: a recognized in-range ISO string
parses to itself (its canonical rendering); anything else is `Invalid Date`. -/
def jsDateParse (s : String) : Option String :=
  if isoShape s.toList then some s else none

/-- Regex `^\d{8}T\d{6}Z?$` of `parseDate`: the compact Evernote stamp. -/
def compactShape : List Char → Bool
  | d1 :: d2 :: d3 :: d4 :: d5 :: d6 :: d7 :: d8 :: 'T' ::
    t1 :: t2 :: t3 :: t4 :: t5 :: t6 :: rest =>
    ([d1, d2, d3, d4, d5, d6, d7, d8, t1, t2, t3, t4, t5, t6].all Char.isDigit) &&
    (rest = [] || rest = ['Z'])
  | _ => false

/-- Rebuild of the compact stamp as done by `parseDate` with `substr` (positions
0-3 year, 4-5 month, 6-7 day, 9-10 hour, 11-12 minute, 13-14 second), always
suffixed with `Z`. -/
def compactRebuild (cs : List Char) : String :=
  match cs with
  | d1 :: d2 :: d3 :: d4 :: d5 :: d6 :: d7 :: d8 :: _ ::
    t1 :: t2 :: t3 :: t4 :: t5 :: t6 :: _ =>
    String.mk [d1, d2, d3, d4, '-', d5, d6, '-', d7, d8, 'T',
               t1, t2, ':', t3, t4, ':', t5, t6, 'Z']
  | _ => ""

/-- Embedding of `EvernoteProcessor.parseDate(dateStr)`: a falsy value yields
`new Date()` (now); the compact stamp is rebuilt and parsed; anything else goes
to the general `Date` constructor.  The function itself never throws. -/
def parseDate (dateStr : Option String) (now : String) : Option String :=
  match dateStr with
  | none => some now
  | some s =>
    if s = "" then some now
    else if compactShape s.toList then jsDateParse (compactRebuild s.toList)
    else jsDateParse s

/-- Model of `Date.prototype.toISOString`: throws `RangeError` on `Invalid Date`. -/
def jsToISOString : Option String → Except String String
  | some s => .ok s
  | none => .error "Invalid time value"

/-- Deterministic injective stand-in for the external `crypto` MD5 hex digest. -/
def md5hex (s : String) : String := "md5:" ++ s

/-- Embedding of `EvernoteProcessor.generateSourceId(title, created)`:
hashes `` `${title}_${created.toISOString()}` ``; the `toISOString` call throws
when `created` is `Invalid Date`. -/
def generateSourceId (title : String) (created : Option String) : Except String String :=
  (jsToISOString created).map (fun iso => md5hex (title ++ "_" ++ iso))

/-! ### Tag classification (`extractGTDContexts` / `extractGTDProject` / `extractGTDArea`) -/

/-- Bare context words of the regex `^(computer|phone|office|home|errands|waiting|someday)` . -/
def contextWords : List String :=
  ["computer", "phone", "office", "home", "errands", "waiting", "someday"]

/-- Embedding of `EvernoteProcessor.extractGTDContexts(tags)`: keep tags that
start with `@` or begin (case-insensitively) with a bare context word, fold the
latter into `@`-prefixed lowercase form, and default to `["@inbox"]` when the
filter output is empty. -/
def extractGTDContexts (tags : List String) : List String :=
  let contexts :=
    (tags.filter (fun tag =>
        strStarts tag "@" || contextWords.any (fun w => strStarts (strToLower tag) w))).map
      (fun tag => if strStarts tag "@" then tag else "@" ++ strToLower tag)
  if contexts = [] then ["@inbox"] else contexts

/-- Regex `^[A-Z][A-Za-z\s]+Project$` of `extractGTDProject`. -/
def wordProjectShape (tag : String) : Bool :=
  match tag.toList with
  | c :: rest =>
    c.isUpper && decide (8 ≤ rest.length) &&
    ((rest.take (rest.length - 7)).all (fun ch => ch.isAlpha || ch.isWhitespace)) &&
    (rest.drop (rest.length - 7) = "Project".toList)
  | [] => false

/-- Replacement `tag.replace(/^(project[:\s-]*|p:)/i, '')`: the first
alternative strips a case-insensitive `project` label together with the
following run of `:`, whitespace and `-`; otherwise a case-insensitive `p:`
label is stripped; otherwise the tag is unchanged. -/
def stripProjectLabel (tag : String) : String :=
  if strStarts (strToLower tag) "project" then
    String.mk ((tag.toList.drop 7).dropWhile (fun c => c = ':' || c.isWhitespace || c = '-'))
  else if strStarts (strToLower tag) "p:" then String.mk (tag.toList.drop 2)
  else tag

/-- Embedding of `EvernoteProcessor.extractGTDProject(tags)`: the first tag
containing `project` (case-insensitive), starting with `p:`, or matching the
`<Word> Project` shape, with the label stripped and trimmed. -/
def extractGTDProject (tags : List String) : Option String :=
  (tags.find? (fun tag =>
      strIncludes (strToLower tag) "project" || strStarts tag "p:" || wordProjectShape tag)).map
    (fun tag => jsTrim (stripProjectLabel tag))

/-- Fixed life-area vocabulary of `extractGTDArea`. -/
def areaWords : List String :=
  ["personal", "work", "health", "finance", "family", "learning"]

/-- Replacement `tag.replace(/^(area[:\s-]*|a:)/i, '')`. -/
def stripAreaLabel (tag : String) : String :=
  if strStarts (strToLower tag) "area" then
    String.mk ((tag.toList.drop 4).dropWhile (fun c => c = ':' || c.isWhitespace || c = '-'))
  else if strStarts (strToLower tag) "a:" then String.mk (tag.toList.drop 2)
  else tag

/-- Embedding of `EvernoteProcessor.extractGTDArea(tags)`: the first tag
containing `area` (case-insensitive), starting with `a:`, or exactly matching a
life-area word (case-insensitive), with the label stripped and trimmed. -/
def extractGTDArea (tags : List String) : Option String :=
  (tags.find? (fun tag =>
      strIncludes (strToLower tag) "area" || strStarts tag "a:" ||
      areaWords.contains (strToLower tag))).map
    (fun tag => jsTrim (stripAreaLabel tag))

/-! ### Content extraction (`EvernoteProcessor.extractContent`)

The ENML-to-text chain is a sequence of JS global regex replacements followed by
`sanitize-html` with no allowed tags.  The replacement helpers below scan the
character list left to right, exactly as a global regex does: at each position a
match is attempted; on a match the replacement is emitted and scanning resumes
after the matched text (the replacement itself is not rescanned); otherwise one
character is emitted and scanning moves on.  The recursion is driven by a fuel
counter initialized to the input length, which every step strictly decreases
below, so the fuel never runs out before the input does. -/

/-- Splits at the first `>`: the characters before it and the rest after it. -/
def scanToGt : List Char → Option (List Char × List Char)
  | [] => none
  | c :: cs =>
    if c = '>' then some ([], cs)
    else match scanToGt cs with
      | none => none
      | some (a, b) => some (c :: a, b)

/-- Replacement for an open-tag pattern `<name[^>]*>`: from a position starting
with `<name`, the match extends over the (necessarily `>`-free) run up to and
including the first `>`. -/
def replOpenTag (pre repl : List Char) : Nat → List Char → List Char
  | 0, cs => cs
  | _ + 1, [] => []
  | fuel + 1, c :: rest =>
    if pre.isPrefixOf (c :: rest) then
      match scanToGt ((c :: rest).drop pre.length) with
      | some (_, after) => repl ++ replOpenTag pre repl fuel after
      | none => c :: rest
    else c :: replOpenTag pre repl fuel rest

/-- Replacement for a literal pattern (no character class), as in `</en-note>`. -/
def replLit (pat repl : List Char) : Nat → List Char → List Char
  | 0, cs => cs
  | _ + 1, [] => []
  | fuel + 1, c :: rest =>
    if pat.isPrefixOf (c :: rest) then
      repl ++ replLit pat repl fuel ((c :: rest).drop pat.length)
    else c :: replLit pat repl fuel rest

/-- Replacement for a self-closing-tag pattern `<name[^>]*/>` (and, when
`needChecked` is set, `<name[^>]*checked="true"[^>]*/>`): from a position
starting with `<name`, the `>`-free run up to the first `>` must end in `/`,
and for the checked variant must contain the literal `checked="true"` before
that `/`.  Without a match at this position, scanning moves one character on. -/
def replSelfClose (pre repl : List Char) (needChecked : Bool) :
    Nat → List Char → List Char
  | 0, cs => cs
  | _ + 1, [] => []
  | fuel + 1, c :: rest =>
    if pre.isPrefixOf (c :: rest) then
      match scanToGt ((c :: rest).drop pre.length) with
      | some (a, after) =>
        if a.getLast? = some '/' &&
            (!needChecked || hasSeg "checked=\"true\"".toList a.dropLast) then
          repl ++ replSelfClose pre repl needChecked fuel after
        else c :: replSelfClose pre repl needChecked fuel rest
      | none => c :: replSelfClose pre repl needChecked fuel rest
    else c :: replSelfClose pre repl needChecked fuel rest

/-- Text chunks of a markup string: maximal runs of characters outside tags,
where a tag runs from `<` to the next `>` (an unterminated tag swallows the
rest, which `sanitize-html` drops as markup). -/
def textChunksAux : Nat → List Char → List Char → List (List Char)
  | 0, _, acc => [acc.reverse]
  | _ + 1, [], acc => [acc.reverse]
  | fuel + 1, c :: rest, acc =>
    if c = '<' then
      match scanToGt rest with
      | some (_, after) => acc.reverse :: textChunksAux fuel after []
      | none => [acc.reverse]
    else textChunksAux fuel rest (c :: acc)

/-- Collapse of every whitespace run into one space, as `text.replace(/\s+/g, ' ')`. -/
def squeezeWs : Bool → List Char → List Char
  | _, [] => []
  | prevWs, c :: rest =>
    if c.isWhitespace then
      if prevWs then squeezeWs true rest else ' ' :: squeezeWs true rest
    else c :: squeezeWs false rest

/-- Per-text-node filter of the `sanitize-html` call:
`text.replace(/\s+/g, ' ').trim()`. -/
def jsTextFilter (chunk : List Char) : String :=
  jsTrim (String.mk (squeezeWs false chunk))

/-- Model of `sanitize-html` with `allowedTags: []`: all markup tags are
stripped, the text filter is applied to each text node, and the filtered text
nodes are concatenated. -/
def sanitizeStrip (cs : List Char) : String :=
  String.join ((textChunksAux cs.length cs []).map jsTextFilter)

/-- Embedding of `EvernoteProcessor.extractContent(contentElement)`: a falsy
value yields the empty string; otherwise the ENML markup goes through the five
global replacements in source order — `<en-note...>` to `<div>`, `</en-note>`
to `</div>`, self-closing `<en-media.../>` to `[Attachment]`, self-closing
`<en-todo.../>` to the unchecked glyph, and self-closing checked
`<en-todo...checked="true".../>` to the checked glyph — and is then sanitized
to plain text.  (The CDATA unwrapping of an `xml2js` object value is performed
before this model's input.) -/
def extractContent (contentElement : Option String) : String :=
  match contentElement with
  | none => ""
  | some raw =>
    if raw = "" then ""
    else
      let s1 := replOpenTag "<en-note".toList "<div>".toList raw.toList.length raw.toList
      let s2 := replLit "</en-note>".toList "</div>".toList s1.length s1
      let s3 := replSelfClose "<en-media".toList "[Attachment]".toList false s2.length s2
      let s4 := replSelfClose "<en-todo".toList "☐ ".toList false s3.length s3
      let s5 := replSelfClose "<en-todo".toList "☑ ".toList true s4.length s4
      sanitizeStrip s5

/-! ### Store model

Relational state per `migrations/005_gtd_productivity_schema.sql`.  Timestamps
already validated by the driver are plain `String`s.  `SERIAL` keys are modelled
by a `nextId` counter per table. -/

/-- Row of the `documents` table. -/
structure DocRow where
  id : Nat
  source_id : Option String
  title : String
  content : String
  gtd_contexts : List String
  gtd_project : Option String
  gtd_area : Option String
  gtd_status : String
  source_type : String
  created_at : String
  updated_at : String
  metadata : String
  embedding : Option (List ℚ)
  is_active : Bool
  needs_embedding : Bool
  deriving Repr, DecidableEq

/-- The `documents` table with its `SERIAL` id counter. -/
structure DocTable where
  rows : List DocRow
  nextId : Nat
  deriving Repr, DecidableEq

/-- Document draft produced by note normalization, i.e. the parameter vector of
the upsert in `EvernoteProcessor.processNote`. -/
structure DocDraft where
  sourceId : String
  title : String
  content : String
  contexts : List String
  project : Option String
  area : Option String
  created : String
  updated : String
  metadata : String
  deriving Repr, DecidableEq

/-- The `ON CONFLICT (source_id) DO UPDATE` assignment list of `processNote`:
content, contexts, project, area, `updated_at` and metadata are overwritten
(the `BEFORE UPDATE` trigger then forces `updated_at = NOW()`, the `updNow`
argument); every other column keeps its stored value. -/
def applyConflictUpdate (r : DocRow) (d : DocDraft) (updNow : String) : DocRow :=
  { r with
    content := d.content
    gtd_contexts := d.contexts
    gtd_project := d.project
    gtd_area := d.area
    updated_at := updNow
    metadata := d.metadata }

/-- Fresh row inserted by `processNote` when no `source_id` conflict arises:
`source_type` is the literal `evernote`; `gtd_status`, `is_active`,
`needs_embedding` and `embedding` take their schema defaults. -/
def insertRow (id : Nat) (d : DocDraft) : DocRow :=
  { id := id
    source_id := some d.sourceId
    title := d.title
    content := d.content
    gtd_contexts := d.contexts
    gtd_project := d.project
    gtd_area := d.area
    gtd_status := "active"
    source_type := "evernote"
    created_at := d.created
    updated_at := d.updated
    metadata := d.metadata
    embedding := none
    is_active := true
    needs_embedding := true }

/-- Embedding of the document upsert
`INSERT ... ON CONFLICT (source_id) DO UPDATE ... RETURNING id`: a row whose
`source_id` equals the draft's is updated in place (the `UNIQUE` constraint on
`source_id` guarantees at most one such row exists) and its id is returned;
otherwise a fresh row is appended under the next serial id. -/
def upsertDocument (t : DocTable) (d : DocDraft) (updNow : String) : DocTable × Nat :=
  match t.rows.find? (fun r => r.source_id = some d.sourceId) with
  | some r =>
    ({ t with rows := t.rows.map (fun r0 =>
        if r0.source_id = some d.sourceId then applyConflictUpdate r0 d updNow else r0) },
     r.id)
  | none =>
    ({ rows := t.rows ++ [insertRow t.nextId d], nextId := t.nextId + 1 }, t.nextId)

/-- Row of the `embedding_queue` table. -/
structure QueueRow where
  id : Nat
  document_id : Nat
  priority : Int
  attempts : Nat
  last_error : Option String
  processed_at : Option String
  deriving Repr, DecidableEq

/-- The `embedding_queue` table with its `SERIAL` id counter. -/
structure QueueTable where
  rows : List QueueRow
  nextId : Nat
  deriving Repr, DecidableEq

/-- Embedding of `GTDDatabaseClient.addToEmbeddingQueue`:
`INSERT INTO embedding_queue (document_id, priority) VALUES ($1, $2)
ON CONFLICT DO NOTHING`.  The `embedding_queue` table declares no unique
constraint other than its `SERIAL` primary key, and the freshly assigned key
never collides, so the targetless conflict clause has no arbiter to fire on and
the insert always happens. -/
def addToEmbeddingQueue (q : QueueTable) (documentId : Nat) (priority : Int) : QueueTable :=
  { rows := q.rows ++
      [{ id := q.nextId, document_id := documentId, priority := priority,
         attempts := 0, last_error := none, processed_at := none }]
    nextId := q.nextId + 1 }

/-- Unprocessed queue entries of one document (`processed_at IS NULL`). -/
def pendingFor (q : QueueTable) (documentId : Nat) : List QueueRow :=
  q.rows.filter (fun r => r.document_id = documentId && r.processed_at = none)

/-- Row of the `attachments` table (the columns the claims range over; byte
sizes and storage references live behind external blob/decode collaborators). -/
structure AttachRow where
  document_id : Nat
  filename : String
  file_type : String
  extracted_text : String
  deriving Repr, DecidableEq

/-- Row of the `migration_progress` table. -/
structure MigrationRow where
  migration_id : String
  total_files : Nat
  processed_files : Nat
  failed_files : Nat
  status : String
  error_log : List String
  started_at : Option String
  completed_at : Option String
  last_processed : Option String
  deriving Repr, DecidableEq

/-! ### Note records and `EvernoteProcessor.processNote` -/

/-- Resource block of a note (fields read by `processResource`). -/
structure EvResource where
  mime : Option String
  fileNameAttr : Option String
  fileNameRA : Option String
  dataB64 : Option String
  hashAttr : Option String
  recognitionB64 : Option String
  deriving Repr, DecidableEq

/-- Parsed note record, the argument of `processNote` after `xml2js` parsing
(the one-or-many `note`/`tag`/`resource` shapes already normalized to lists, as
the caller does). -/
structure EvNote where
  title : Option String
  content : Option String
  created : Option String
  updated : Option String
  tags : List String
  guid : Option String
  sourceGuid : Option String
  sourceUrl : Option String
  author : Option String
  resources : List EvResource
  deriving Repr, DecidableEq

/-- Stand-in rendering of `JSON.stringify` on the metadata object built by
`processNote` (tags, source attributes); the claims rely only on the rendering
being a deterministic function of the note. -/
def mkMetadata (note : EvNote) : String :=
  "tags=" ++ String.intercalate "," note.tags ++
  ";url=" ++ note.sourceUrl.getD "" ++ ";author=" ++ note.author.getD ""

/-- Serialization of a JS `Date` parameter by the database driver: an
`Invalid Date` cannot be rendered as a timestamp and makes the query throw. -/
def serializeTimestamp : Option String → Except String String
  | some s => .ok s
  | none => .error "invalid input syntax for type timestamp"

/-- Failure-prone part of `EvernoteProcessor.processNote`, in source order:
field extraction and classification (total), then the source-id chain
`note.$.guid || note['note-attributes']['source-guid'] || generateSourceId(...)`
(where `generateSourceId` throws on an invalid creation date), then the
timestamp parameters of the upsert query (where an invalid date is rejected by
the driver/engine). -/
def processNoteCore (note : EvNote) (now : String) : Except String DocDraft := do
  let title := jsOrStr note.title "Untitled Note"
  let content := extractContent note.content
  let created := parseDate note.created now
  let updated := parseDate note.updated now
  let contexts := extractGTDContexts note.tags
  let project := extractGTDProject note.tags
  let area := extractGTDArea note.tags
  let sid ← match strTruthy note.guid with
    | some g => Except.ok g
    | none => match strTruthy note.sourceGuid with
      | some g => Except.ok g
      | none => generateSourceId title created
  let createdS ← serializeTimestamp created
  let updatedS ← serializeTimestamp updated
  Except.ok
    { sourceId := sid, title := title, content := content, contexts := contexts,
      project := project, area := area, created := createdS, updated := updatedS,
      metadata := mkMetadata note }

/-- Embedding of `EvernoteProcessor.processResource`: appends one attachment
row; every internal error (payload decode, OCR recognition decode) is swallowed
inside the function, so it is total and never fails the note. -/
def processResource (atts : List AttachRow) (r : EvResource) (docId : Nat)
    (now : String) : List AttachRow :=
  atts ++
    [{ document_id := docId
       filename := jsOrStr r.fileNameAttr (jsOrStr r.fileNameRA ("attachment_" ++ now))
       file_type := jsOrStr r.mime "application/octet-stream"
       extracted_text := match strTruthy r.recognitionB64 with
         | some reco => "reco:" ++ reco
         | none => "" }]

/-- In-memory statistics object of an `EvernoteProcessor` instance
(`this.stats`); error entries are the pushed `{ note: note.title, error }` pairs. -/
structure Stats where
  total : Nat
  processed : Nat
  failed : Nat
  errors : List (Option String × String)
  deriving Repr, DecidableEq

/-- Whole mutable state of one migration run: the relevant store tables, the
job's `migration_progress` row and the processor's in-memory statistics. -/
structure SysState where
  docs : DocTable
  atts : List AttachRow
  queue : QueueTable
  job : MigrationRow
  stats : Stats
  deriving Repr, DecidableEq

/-- Embedding of one `processNote` call: on any internal error the catch block
increments `failed` and pushes `{ note: note.title, error }`; otherwise the
document is upserted, its resources attached, the document queued for embedding
and `processed` incremented.  The call never propagates an error. -/
def runNote (st : SysState) (note : EvNote) (now : String) : SysState :=
  match processNoteCore note now with
  | .error e =>
    { st with stats :=
        { st.stats with
          failed := st.stats.failed + 1
          errors := st.stats.errors ++ [(note.title, e)] } }
  | .ok draft =>
    let (docs', docId) := upsertDocument st.docs draft now
    let atts' := note.resources.foldl (fun a r => processResource a r docId now) st.atts
    let queue' := addToEmbeddingQueue st.queue docId 5
    { st with
      docs := docs'
      atts := atts'
      queue := queue'
      stats := { st.stats with processed := st.stats.processed + 1 } }

/-- Rendering of one in-memory error entry into the persisted `error_log`
JSONB list. -/
def errRender (p : Option String × String) : String :=
  jsOrStr p.1 "undefined" ++ ": " ++ p.2

/-- Batch checkpoint of `processENEXContent`: `updateMigrationProgress` with
the three counters (the dynamic update always also stamps `last_processed`). -/
def checkpoint (st : SysState) (now : String) : SysState :=
  { st with job :=
      { st.job with
        total_files := st.stats.total
        processed_files := st.stats.processed
        failed_files := st.stats.failed
        last_processed := some now } }

/-- One batch: every note of the batch is processed (their stats/store effects
fold), then the progress checkpoint is written. -/
def runBatch (st : SysState) (batch : List EvNote) (now : String) : SysState :=
  checkpoint (batch.foldl (fun s n => runNote s n now) st) now

/-- Fixed-size chunking of the note list (`batchSize = 10` slices). -/
def chunksAux (n : Nat) : Nat → List α → List (List α)
  | 0, _ => []
  | _, [] => []
  | fuel + 1, l => l.take n :: chunksAux n fuel (l.drop n)

/-- Batches of ten notes, in order. -/
def batchesOf10 (l : List α) : List (List α) := chunksAux 10 l.length l

/-- Embedding of `EvernoteProcessor.processENEXContent` after XML parsing.
`root = none` models a top-level structural failure (the XML does not parse or
the `en-export` root is missing): the catch block persists status `failed`
together with the error log and rethrows.  Otherwise the notes are processed in
batches of ten with a checkpoint after each batch, and the job is finally
marked `completed` with a completion time — the per-note error entries stay in
the returned in-memory stats and are not written to the row. -/
def processENEXContent (root : Option (List EvNote)) (st0 : SysState)
    (now : String) : SysState × Except String Stats :=
  match root with
  | none =>
    let msg := "Invalid ENEX format: missing en-export root"
    ({ st0 with job :=
        { st0.job with
          status := "failed"
          error_log := st0.stats.errors.map errRender ++ [msg]
          last_processed := some now } },
     Except.error msg)
  | some notes =>
    let st1 := { st0 with stats := { st0.stats with total := notes.length } }
    let st2 := (batchesOf10 notes).foldl (fun s b => runBatch s b now) st1
    let st3 := { st2 with job :=
        { st2.job with
          status := "completed"
          completed_at := some now
          last_processed := some now } }
    (st3, .ok st3.stats)

/-- Fresh system state as `initMigration` leaves it: empty tables, a freshly
inserted `migration_progress` row in status `running`, zeroed statistics. -/
def initState (migId : String) (now : String) : SysState :=
  { docs := { rows := [], nextId := 1 }
    atts := []
    queue := { rows := [], nextId := 1 }
    job :=
      { migration_id := migId, total_files := 0, processed_files := 0,
        failed_files := 0, status := "running", error_log := [],
        started_at := some now, completed_at := none, last_processed := none }
    stats := { total := 0, processed := 0, failed := 0, errors := [] } }

/-- Truth of "this note fails to process" (its try-block throws). -/
def noteFails (note : EvNote) (now : String) : Bool :=
  match processNoteCore note now with
  | .error _ => true
  | .ok _ => false

/-- Message of a failing note's error (empty for a processable note). -/
def noteErrMsg (note : EvNote) (now : String) : String :=
  match processNoteCore note now with
  | .error e => e
  | .ok _ => ""

/-- Number of notes of the list that fail to process. -/
def failCount (notes : List EvNote) (now : String) : Nat :=
  (notes.filter (fun n => noteFails n now)).length

/-- Number of notes of the list that process successfully. -/
def okCount (notes : List EvNote) (now : String) : Nat :=
  (notes.filter (fun n => !noteFails n now)).length

/-- Error-log entries pushed for the failing notes, in source order. -/
def errEntries (notes : List EvNote) (now : String) : List (Option String × String) :=
  notes.filterMap (fun n =>
    match processNoteCore n now with
    | .error e => some (n.title, e)
    | .ok _ => none)

/-! ### Hybrid search (`hybrid_search` SQL function and `GTDSearchService`)

The storage engine's ranking primitives — the full-text match `@@` with
`websearch_to_tsquery`, the rank `ts_rank` and the cosine distance `<=>` — are
consumed through the store contract, not implemented in this repository; the
model takes them as parameters. -/

/-- External ranking primitives of the storage engine. -/
structure SearchPrims where
  tsMatch : DocRow → String → Bool
  tsRank : DocRow → String → ℚ
  cosDist : List ℚ → List ℚ → ℚ

/-- Filter clause `context_filter IS NULL OR d.gtd_contexts && context_filter`
(array overlap: the two arrays share an element). -/
def ctxMatch (ctx : Option (List String)) (d : DocRow) : Bool :=
  match ctx with
  | none => true
  | some cs => d.gtd_contexts.any (fun c => cs.contains c)

/-- Descending-score order used for `ORDER BY ... DESC` on `(id, score)` pairs. -/
def scoreGE (a b : Nat × ℚ) : Prop := b.2 ≤ a.2

instance : DecidableRel scoreGE := fun a b => inferInstanceAs (Decidable (b.2 ≤ a.2))

instance : IsTotal (Nat × ℚ) scoreGE := ⟨fun a b => le_total b.2 a.2⟩

instance : IsTrans (Nat × ℚ) scoreGE := ⟨fun _ _ _ h1 h2 => le_trans h2 h1⟩

/-- The `vector_search` CTE of `hybrid_search`: active documents with a
non-null embedding satisfying the context filter, scored `1 - (embedding <=>
query_embedding)`, ordered by ascending distance (equivalently descending
similarity) and capped at `limit_count * 2`. -/
def vectorSearchCTE (P : SearchPrims) (docs : List DocRow) (qEmb : List ℚ)
    (ctx : Option (List String)) (lim : Nat) : List (Nat × ℚ) :=
  (List.insertionSort scoreGE
    (docs.filterMap (fun d =>
      match d.embedding with
      | some e =>
        if d.is_active && ctxMatch ctx d then some (d.id, 1 - P.cosDist e qEmb) else none
      | none => none))).take (lim * 2)

/-- The `text_search` CTE of `hybrid_search`: active documents matching the
full-text query under the context filter, scored by `ts_rank` and capped at
`limit_count * 2` (this CTE carries no ORDER BY; row order is table order). -/
def textSearchCTE (P : SearchPrims) (docs : List DocRow) (q : String)
    (ctx : Option (List String)) (lim : Nat) : List (Nat × ℚ) :=
  (docs.filterMap (fun d =>
    if P.tsMatch d q && d.is_active && ctxMatch ctx d then
      some (d.id, P.tsRank d q)
    else none)).take (lim * 2)

/-- First score recorded for an id in a candidate list. -/
def lookupScore (l : List (Nat × ℚ)) (i : Nat) : Option ℚ :=
  (l.find? (fun p => p.1 = i)).map (fun p => p.2)

/-- The `combined` CTE: FULL OUTER JOIN of the two candidate sets on document
id, scoring `COALESCE(vector_score, 0) * weight_vector + COALESCE(text_score,
0) * (1 - weight_vector)` — rows of the vector side pick up a matching text
score or 0, and text rows with no vector partner contribute their text term
alone. -/
def combineCTE (vw : ℚ) (vs ts : List (Nat × ℚ)) : List (Nat × ℚ) :=
  vs.map (fun p => (p.1, p.2 * vw + ((lookupScore ts p.1).getD 0) * (1 - vw))) ++
  (ts.filter (fun p => lookupScore vs p.1 = none)).map
    (fun p => (p.1, (0 : ℚ) * vw + p.2 * (1 - vw)))

/-- Embedding of the SQL function `hybrid_search(query_text, query_embedding,
context_filter, weight_vector, limit_count)`: both candidate sets are built,
combined by full outer join, ordered by descending combined score and truncated
to `limit_count` (the final SELECT joins back to `documents` for title and
snippet, leaving ids and scores unchanged, so the model returns the
`(id, combined_score)` pairs). -/
def hybridSearchFn (P : SearchPrims) (docs : List DocRow) (q : String)
    (qEmb : List ℚ) (ctx : Option (List String)) (vw : ℚ) (lim : Nat) :
    List (Nat × ℚ) :=
  let vs := vectorSearchCTE P docs qEmb ctx lim
  let ts := textSearchCTE P docs q ctx lim
  (List.insertionSort scoreGE (combineCTE vw vs ts)).take lim

/-- Embedding of the service path
`GTDSearchService.hybridSearch` → `GTDDatabaseClient.hybridSearch`: the service
receives the caller's `contexts`, `area`, `limit` and `vectorWeight` options,
but forwards only `contexts`, `vectorWeight` and `limit` to the store call
`SELECT * FROM hybrid_search($1, $2, $3, $4, $5)` — the area filter is dropped,
and the SQL function has no area parameter. -/
def serviceHybridSearch (P : SearchPrims) (docs : List DocRow) (q : String)
    (qEmb : List ℚ) (contexts : Option (List String)) (area : Option String)
    (vw : ℚ) (lim : Nat) : List (Nat × ℚ) :=
  hybridSearchFn P docs q qEmb contexts vw lim

/-! ### Concrete instances used by witnesses and counterexamples -/

/-- Well-formed note with an external GUID (varying title and tags). -/
def okNote (g t : String) (tags : List String) : EvNote :=
  { title := some t, content := some "<en-note>body</en-note>",
    created := some "20230615T140000Z", updated := none, tags := tags,
    guid := some g, sourceGuid := none, sourceUrl := none, author := none,
    resources := [] }

/-- Note whose creation date no date parser recognizes and which carries no
external GUID, so its source id must be derived from the invalid date. -/
def badNote (t : String) : EvNote :=
  { title := some t, content := none, created := some "not-a-date",
    updated := none, tags := [], guid := none, sourceGuid := none,
    sourceUrl := none, author := none, resources := [] }

/-- Batch of ten notes whose fourth is malformed. -/
def c3Notes : List EvNote :=
  [okNote "g1" "n1" [], okNote "g2" "n2" [], okNote "g3" "n3" [],
   badNote "Note 4",
   okNote "g5" "n5" [], okNote "g6" "n6" [], okNote "g7" "n7" [],
   okNote "g8" "n8" [], okNote "g9" "n9" [], okNote "g10" "n10" []]

/-- Single-malformed-note export for the error-log claims. -/
def c4Note : EvNote := badNote "broken note"

/-- Malformed note for the date-totality claims. -/
def c5Note : EvNote := badNote "dated note"

/-- Ranking primitives for the hybrid-search witnesses: every document matches
the text query with rank 0.8, and cosine distance is 0.5 (similarity 0.5). -/
def demoPrims : SearchPrims :=
  { tsMatch := fun _ _ => true
    tsRank := fun _ _ => 4 / 5
    cosDist := fun _ _ => 1 / 2 }

/-- Active document with an embedding (appears in both candidate sets). -/
def docBoth : DocRow :=
  { id := 1, source_id := none, title := "both", content := "alpha",
    gtd_contexts := ["@inbox"], gtd_project := none, gtd_area := some "home",
    gtd_status := "active", source_type := "evernote", created_at := "t0",
    updated_at := "t0", metadata := "", embedding := some [1],
    is_active := true, needs_embedding := false }

/-- Active document without an embedding (lexical candidate only). -/
def docTextOnly : DocRow :=
  { docBoth with id := 2, title := "text", embedding := none }

/-- First import of the witness note carrying GUID `gw2`. -/
def w2Note1 : EvNote := okNote "gw2" "first" []

/-- Re-import of the same source identity with changed content and tags. -/
def w2Note2 : EvNote :=
  { okNote "gw2" "second" ["finance"] with content := some "<en-note>new text</en-note>" }

/-- Store state after the first import. -/
def w2State : SysState := runNote (initState "mw" "T0") w2Note1 "T0"

/-- Draft the re-imported note normalizes to. -/
def w2Draft : DocDraft :=
  { sourceId := "gw2", title := "second", content := "new text",
    contexts := ["@inbox"], project := none, area := some "finance",
    created := "2023-06-15T14:00:00Z", updated := "T1",
    metadata := "tags=finance;url=;author=" }

/-- Row stored by the first import. -/
def w2Row : DocRow :=
  { id := 1, source_id := some "gw2", title := "first", content := "body",
    gtd_contexts := ["@inbox"], gtd_project := none, gtd_area := none,
    gtd_status := "active", source_type := "evernote",
    created_at := "2023-06-15T14:00:00Z", updated_at := "T0",
    metadata := "tags=;url=;author=", embedding := none, is_active := true,
    needs_embedding := true }

/-! ### Claims -/

/-- C6: the claim asserts that enqueueing a document that already has an
unprocessed embedding-queue entry is an idempotent no-op, leaving exactly one
pending entry.  The `ON CONFLICT DO NOTHING` clause of
`addToEmbeddingQueue` shows this was the intent, but `embedding_queue`
declares no unique constraint on `document_id`, so no conflict ever arises:
enqueueing document 7 twice yields two pending entries. -/
theorem C6_embedding_queue_double_insert :
    (pendingFor (addToEmbeddingQueue
      (addToEmbeddingQueue { rows := [], nextId := 1 } 7 5) 7 5) 7).length = 2 ∧
    ∀ r ∈ (addToEmbeddingQueue
      (addToEmbeddingQueue { rows := [], nextId := 1 } 7 5) 7 5).rows,
        r.document_id = 7 ∧ r.processed_at = none := by
  decide

/-- C7: tag classification determinism — the tag list
`["project-apollo", "@computer", "finance"]` classifies to project `apollo`,
contexts `["@computer"]` and area `finance`; the empty tag list receives
exactly the default sentinel context `@inbox`; and the contexts list is never
empty for any input tag list. -/
theorem C7_tag_classification :
    extractGTDContexts ["project-apollo", "@computer", "finance"] = ["@computer"] ∧
    extractGTDProject ["project-apollo", "@computer", "finance"] = some "apollo" ∧
    extractGTDArea ["project-apollo", "@computer", "finance"] = some "finance" ∧
    extractGTDContexts [] = ["@inbox"] ∧
    ∀ tags : List String, extractGTDContexts tags ≠ [] := by
  refine ⟨by decide, by decide, by decide, by decide, fun tags => ?_⟩
  unfold extractGTDContexts
  dsimp only
  split
  · simp
  · next h => exact h

/-- C7 witness: the never-empty-contexts part applied at a concrete tag list. -/
theorem C7_tag_classification_witness :
    extractGTDContexts ["zzz"] ≠ [] :=
  C7_tag_classification.2.2.2.2 ["zzz"]

/-- C9: the claim asserts that a checkbox element marked `checked="true"`
appears as the checked glyph in the extracted text.  The source performs the
unchecked replacement `/<en-todo[^>]*\/>/g` first, which already consumes every
self-closing `en-todo` element — including checked ones — so the checked
replacement never fires: a checked checkbox comes out as the unchecked glyph
and the checked glyph never appears. -/
theorem C9_checkbox_conversion :
    extractContent (some "<en-note><en-todo checked=\"true\"/>Buy milk</en-note>")
      = "☐ Buy milk" ∧
    strIncludes (extractContent
      (some "<en-note><en-todo checked=\"true\"/>Buy milk</en-note>")) "☑" = false ∧
    extractContent (some "<en-note><en-todo/>plain task</en-note>")
      = "☐ plain task" := by
  decide

/-- C5 counterexample: the claim asserts that an unparseable date value
degrades to the current time and the note is still processed successfully.
At the concrete input `"not-a-date"`, `parseDate` yields the `Invalid Date`
value, not now; and processing a note carrying that date with no external GUID
fails (the source-id derivation calls `toISOString` on the invalid date), so
the note is counted as failed, not processed. -/
theorem C5_unparseable_date_counterexample :
    parseDate (some "not-a-date") "2024-05-01T00:00:00Z" = none ∧
    parseDate (some "not-a-date") "2024-05-01T00:00:00Z" ≠ some "2024-05-01T00:00:00Z" ∧
    (runNote (initState "m5" "2024-05-01T00:00:00Z") c5Note
      "2024-05-01T00:00:00Z").stats.processed = 0 ∧
    (runNote (initState "m5" "2024-05-01T00:00:00Z") c5Note
      "2024-05-01T00:00:00Z").stats.failed = 1 := by
  decide

/-- C5 amended: `parseDate` itself is total and never raises — an absent or
empty date value yields the current time — but an unparseable date value
yields the JS `Invalid Date` value rather than now; a note carrying such a
date and no external source GUID then fails inside `processNote` (the
`toISOString` call of the source-id derivation throws), where the failure is
caught and counted as a per-note failure: the store is untouched and nothing
propagates past the normalizer's boundary. -/
theorem C5_date_parsing_amended (note : EvNote) (st : SysState) (now : String)
    (hbad : parseDate note.created now = none)
    (hguid : strTruthy note.guid = none)
    (hsrc : strTruthy note.sourceGuid = none) :
    parseDate none now = some now ∧
    parseDate (some "") now = some now ∧
    (runNote st note now).stats.failed = st.stats.failed + 1 ∧
    (runNote st note now).stats.processed = st.stats.processed ∧
    (runNote st note now).docs = st.docs ∧
    (runNote st note now).queue = st.queue := by
  have hcore : processNoteCore note now = .error "Invalid time value" := by
    unfold processNoteCore
    rw [hbad, hguid, hsrc]
    rfl
  refine ⟨rfl, rfl, ?_, ?_, ?_, ?_⟩ <;> simp [runNote, hcore]

/-- C5 witness: the amended statement applied to the concrete malformed note. -/
theorem C5_date_parsing_amended_witness :
    parseDate none "T0" = some "T0" ∧
    parseDate (some "") "T0" = some "T0" ∧
    (runNote (initState "m" "T0") c5Note "T0").stats.failed =
      (initState "m" "T0").stats.failed + 1 ∧
    (runNote (initState "m" "T0") c5Note "T0").stats.processed =
      (initState "m" "T0").stats.processed ∧
    (runNote (initState "m" "T0") c5Note "T0").docs = (initState "m" "T0").docs ∧
    (runNote (initState "m" "T0") c5Note "T0").queue = (initState "m" "T0").queue :=
  C5_date_parsing_amended c5Note (initState "m" "T0") "T0"
    (by decide) (by decide) (by decide)

/-! ### Upsert lemmas for the re-import claims -/

/-- A filter that returns exactly one element means the first match of a
linear search is that element. -/
theorem filter_single_find {α : Type} (p : α → Bool) (l : List α) (a : α)
    (h : l.filter p = [a]) : l.find? p = some a := by
  induction l with
  | nil => simp at h
  | cons x xs ih =>
    by_cases hp : p x
    · simp [hp] at h ⊢
      exact h.1
    · simp [hp] at h ⊢
      simp [hp, ih h]

/-- Updating exactly the rows selected by `p` with a `p`-preserving map
commutes with filtering by `p`. -/
theorem filter_map_upd {α : Type} (p : α → Bool) (f : α → α)
    (hf : ∀ x, p (f x) = p x) (l : List α) :
    (l.map (fun x => if p x then f x else x)).filter p = (l.filter p).map f := by
  induction l with
  | nil => rfl
  | cons x xs ih =>
    by_cases hp : p x
    · simp [hp, hf, ih]
    · simp [hp, ih]

/-- Conflict path of the document upsert: when exactly one stored row carries
the draft's source id, the upsert rewrites that row in place (no insertion),
returns its id, and the rewritten row is the stored row with only the
`DO UPDATE` columns replaced. -/
theorem upsertDocument_conflict (t : DocTable) (d : DocDraft) (updNow : String)
    (r : DocRow)
    (h : t.rows.filter (fun x => x.source_id = some d.sourceId) = [r]) :
    (upsertDocument t d updNow).1.rows.length = t.rows.length ∧
    (upsertDocument t d updNow).1.rows.filter
        (fun x => x.source_id = some d.sourceId) =
      [applyConflictUpdate r d updNow] ∧
    (upsertDocument t d updNow).2 = r.id := by
  have hfind := filter_single_find _ _ _ h
  have hpres : ∀ x : DocRow,
      (decide ((applyConflictUpdate x d updNow).source_id = some d.sourceId)) =
      (decide (x.source_id = some d.sourceId)) := by
    intro x
    rfl
  unfold upsertDocument
  rw [hfind]
  refine ⟨by simp, ?_, rfl⟩
  have := filter_map_upd (fun x : DocRow => decide (x.source_id = some d.sourceId))
    (fun x => applyConflictUpdate x d updNow) hpres t.rows
  simp only [decide_eq_true_eq] at this h
  rw [this, h]
  rfl

/-- C2: idempotent re-import — processing a note whose derived source identity
is already stored (exactly one row carries it, as the UNIQUE constraint
guarantees) leaves the number of documents unchanged; afterwards exactly one
row carries that source id, it keeps the stored internal id, and its content,
contexts, project, area, `updated_at` and metadata are the re-imported
values. -/
theorem C2_idempotent_reimport (st : SysState) (note : EvNote) (now : String)
    (draft : DocDraft) (r : DocRow)
    (hok : processNoteCore note now = .ok draft)
    (hr : st.docs.rows.filter (fun x => x.source_id = some draft.sourceId) = [r]) :
    (runNote st note now).docs.rows.length = st.docs.rows.length ∧
    ∃ r', (runNote st note now).docs.rows.filter
        (fun x => x.source_id = some draft.sourceId) = [r'] ∧
      r'.id = r.id ∧ r'.content = draft.content ∧
      r'.gtd_contexts = draft.contexts ∧ r'.gtd_project = draft.project ∧
      r'.gtd_area = draft.area ∧ r'.updated_at = now ∧
      r'.metadata = draft.metadata := by
  have hups := upsertDocument_conflict st.docs draft now r hr
  have hdocs : (runNote st note now).docs = (upsertDocument st.docs draft now).1 := by
    simp [runNote, hok]
  rw [hdocs]
  exact ⟨hups.1, applyConflictUpdate r draft now, hups.2.1,
    rfl, rfl, rfl, rfl, rfl, rfl, rfl⟩

/-- C10: frame property of re-import — under the same source-id conflict, the
surviving row's `title`, `created_at` and `source_type` are exactly the stored
ones, whatever values the re-imported note carries. -/
theorem C10_reimport_frame (st : SysState) (note : EvNote) (now : String)
    (draft : DocDraft) (r : DocRow)
    (hok : processNoteCore note now = .ok draft)
    (hr : st.docs.rows.filter (fun x => x.source_id = some draft.sourceId) = [r]) :
    ∃ r', (runNote st note now).docs.rows.filter
        (fun x => x.source_id = some draft.sourceId) = [r'] ∧
      r'.title = r.title ∧ r'.created_at = r.created_at ∧
      r'.source_type = r.source_type ∧ r'.gtd_status = r.gtd_status ∧
      r'.embedding = r.embedding ∧ r'.is_active = r.is_active := by
  have hups := upsertDocument_conflict st.docs draft now r hr
  have hdocs : (runNote st note now).docs = (upsertDocument st.docs draft now).1 := by
    simp [runNote, hok]
  rw [hdocs]
  exact ⟨applyConflictUpdate r draft now, hups.2.1, rfl, rfl, rfl, rfl, rfl, rfl⟩

/-- C2 witness: the idempotent re-import statement applied to a concrete
second ingestion of GUID `gw2`. -/
theorem C2_idempotent_reimport_witness :
    (runNote w2State w2Note2 "T1").docs.rows.length = w2State.docs.rows.length ∧
    ∃ r', (runNote w2State w2Note2 "T1").docs.rows.filter
        (fun x => x.source_id = some w2Draft.sourceId) = [r'] ∧
      r'.id = w2Row.id ∧ r'.content = w2Draft.content ∧
      r'.gtd_contexts = w2Draft.contexts ∧ r'.gtd_project = w2Draft.project ∧
      r'.gtd_area = w2Draft.area ∧ r'.updated_at = "T1" ∧
      r'.metadata = w2Draft.metadata :=
  C2_idempotent_reimport w2State w2Note2 "T1" w2Draft w2Row rfl (by decide)

/-- C10 witness: the frame statement applied to the same concrete
re-ingestion. -/
theorem C10_reimport_frame_witness :
    ∃ r', (runNote w2State w2Note2 "T1").docs.rows.filter
        (fun x => x.source_id = some w2Draft.sourceId) = [r'] ∧
      r'.title = w2Row.title ∧ r'.created_at = w2Row.created_at ∧
      r'.source_type = w2Row.source_type ∧ r'.gtd_status = w2Row.gtd_status ∧
      r'.embedding = w2Row.embedding ∧ r'.is_active = w2Row.is_active :=
  C10_reimport_frame w2State w2Note2 "T1" w2Draft w2Row rfl (by decide)

/-! ### Migration accounting lemmas -/

/-- Processing one note never touches the job row. -/
theorem runNote_job (st : SysState) (note : EvNote) (now : String) :
    (runNote st note now).job = st.job := by
  unfold runNote
  cases processNoteCore note now <;> rfl

/-- Statistics effect of one note: a failing note bumps `failed` and pushes its
error entry; a processable note bumps `processed`; `total` is untouched. -/
theorem runNote_stats (st : SysState) (note : EvNote) (now : String) :
    (runNote st note now).stats.total = st.stats.total ∧
    (runNote st note now).stats.processed
      = st.stats.processed + (if noteFails note now then 0 else 1) ∧
    (runNote st note now).stats.failed
      = st.stats.failed + (if noteFails note now then 1 else 0) ∧
    (runNote st note now).stats.errors
      = st.stats.errors ++
        (if noteFails note now then [(note.title, noteErrMsg note now)] else []) := by
  unfold runNote noteFails noteErrMsg
  cases processNoteCore note now <;> simp

/-- The statistics a note-fold produces depend only on the starting
statistics, not on the rest of the state. -/
theorem foldl_runNote_stats_congr (now : String) :
    ∀ (notes : List EvNote) (st1 st2 : SysState), st1.stats = st2.stats →
      (notes.foldl (fun s n => runNote s n now) st1).stats
        = (notes.foldl (fun s n => runNote s n now) st2).stats := by
  intro notes
  induction notes with
  | nil => intro st1 st2 h; simpa using h
  | cons n ns ih =>
    intro st1 st2 h
    refine ih (runNote st1 n now) (runNote st2 n now) ?_
    have h1 := runNote_stats st1 n now
    have h2 := runNote_stats st2 n now
    cases hs1 : (runNote st1 n now).stats
    cases hs2 : (runNote st2 n now).stats
    simp_all

/-- Statistics of a straight note-fold: `processed` grows by the number of
processable notes, `failed` by the number of failing ones, the error entries of
the failing notes are appended in order, and the job row is untouched. -/
theorem foldl_runNote_stats (now : String) :
    ∀ (notes : List EvNote) (st : SysState),
      (notes.foldl (fun s n => runNote s n now) st).stats.total = st.stats.total ∧
      (notes.foldl (fun s n => runNote s n now) st).stats.processed
        = st.stats.processed + okCount notes now ∧
      (notes.foldl (fun s n => runNote s n now) st).stats.failed
        = st.stats.failed + failCount notes now ∧
      (notes.foldl (fun s n => runNote s n now) st).stats.errors
        = st.stats.errors ++ errEntries notes now ∧
      (notes.foldl (fun s n => runNote s n now) st).job = st.job := by
  intro notes
  induction notes with
  | nil => intro st; simp [okCount, failCount, errEntries]
  | cons n ns ih =>
    intro st
    have hr := runNote_stats st n now
    have hj := runNote_job st n now
    have hih := ih (runNote st n now)
    have hoc : okCount (n :: ns) now
        = (if noteFails n now then 0 else 1) + okCount ns now := by
      by_cases h : noteFails n now <;> simp [okCount, List.filter_cons, h] <;> omega
    have hfc : failCount (n :: ns) now
        = (if noteFails n now then 1 else 0) + failCount ns now := by
      by_cases h : noteFails n now <;> simp [failCount, List.filter_cons, h] <;> omega
    have hee : errEntries (n :: ns) now
        = (if noteFails n now then [(n.title, noteErrMsg n now)] else [])
          ++ errEntries ns now := by
      cases hc : processNoteCore n now <;>
        simp [errEntries, List.filterMap_cons, noteFails, noteErrMsg, hc]
    simp only [List.foldl_cons]
    refine ⟨?_, ?_, ?_, ?_, ?_⟩
    · rw [hih.1, hr.1]
    · rw [hih.2.1, hr.2.1, hoc]
      omega
    · rw [hih.2.2.1, hr.2.2.1, hfc]
      omega
    · rw [hih.2.2.2.1, hr.2.2.2, hee, List.append_assoc]
    · rw [hih.2.2.2.2, hj]

/-- A batch leaves the statistics exactly as the plain note-fold does (the
trailing checkpoint copies them into the job row without changing them). -/
theorem runBatch_stats (st : SysState) (b : List EvNote) (now : String) :
    (runBatch st b now).stats = (b.foldl (fun s n => runNote s n now) st).stats := rfl

/-- Folding batches produces the same statistics as folding the concatenation
of their notes. -/
theorem foldl_runBatch_stats (now : String) :
    ∀ (bs : List (List EvNote)) (st : SysState),
      ((bs.foldl (fun s b => runBatch s b now) st).stats
        = (bs.flatten.foldl (fun s n => runNote s n now) st).stats) := by
  intro bs
  induction bs with
  | nil => intro st; rfl
  | cons b bs ih =>
    intro st
    calc ((b :: bs).foldl (fun s b => runBatch s b now) st).stats
        = ((bs.foldl (fun s b => runBatch s b now) (runBatch st b now))).stats := rfl
      _ = (bs.flatten.foldl (fun s n => runNote s n now) (runBatch st b now)).stats :=
          ih (runBatch st b now)
      _ = (bs.flatten.foldl (fun s n => runNote s n now)
            (b.foldl (fun s n => runNote s n now) st)).stats :=
          foldl_runNote_stats_congr now bs.flatten _ _ (runBatch_stats st b now)
      _ = ((b :: bs).flatten.foldl (fun s n => runNote s n now) st).stats := by
          rw [List.flatten_cons, List.foldl_append]

/-- After the last of one or more batches, the job row's three counters equal
the in-memory statistics (the trailing checkpoint wrote them). -/
theorem foldl_runBatch_job_counters (now : String) (bs : List (List EvNote))
    (st : SysState) (h : bs ≠ []) :
    (bs.foldl (fun s b => runBatch s b now) st).job.processed_files
      = (bs.foldl (fun s b => runBatch s b now) st).stats.processed ∧
    (bs.foldl (fun s b => runBatch s b now) st).job.failed_files
      = (bs.foldl (fun s b => runBatch s b now) st).stats.failed ∧
    (bs.foldl (fun s b => runBatch s b now) st).job.total_files
      = (bs.foldl (fun s b => runBatch s b now) st).stats.total := by
  induction bs using List.reverseRecOn with
  | nil => exact absurd rfl h
  | append_singleton bs1 b _ =>
    rw [List.foldl_append]
    exact ⟨rfl, rfl, rfl⟩

/-- Folding batches preserves the job row's status, error log and further
non-counter columns (checkpoints touch only the counters and the
`last_processed` stamp). -/
theorem foldl_runBatch_job_rest (now : String) :
    ∀ (bs : List (List EvNote)) (st : SysState),
      (bs.foldl (fun s b => runBatch s b now) st).job.status = st.job.status ∧
      (bs.foldl (fun s b => runBatch s b now) st).job.error_log = st.job.error_log ∧
      (bs.foldl (fun s b => runBatch s b now) st).job.completed_at
        = st.job.completed_at := by
  intro bs
  induction bs with
  | nil => intro st; exact ⟨rfl, rfl, rfl⟩
  | cons b bs ih =>
    intro st
    have hbatch : (runBatch st b now).job.status = st.job.status ∧
        (runBatch st b now).job.error_log = st.job.error_log ∧
        (runBatch st b now).job.completed_at = st.job.completed_at := by
      have hf := (foldl_runNote_stats now b st).2.2.2.2
      unfold runBatch checkpoint
      rw [hf]
      exact ⟨rfl, rfl, rfl⟩
    have hih := ih (runBatch st b now)
    exact ⟨hih.1.trans hbatch.1, hih.2.1.trans hbatch.2.1, hih.2.2.trans hbatch.2.2⟩

/-- Chunking splits the list without loss: the chunks concatenate back to it. -/
theorem chunksAux_flatten {α : Type} (n : Nat) (hn : 0 < n) :
    ∀ (fuel : Nat) (l : List α), l.length ≤ fuel →
      (chunksAux n fuel l).flatten = l := by
  intro fuel
  induction fuel with
  | zero =>
    intro l hl
    have : l = [] := List.eq_nil_of_length_eq_zero (Nat.le_zero.mp hl)
    simp [this, chunksAux]
  | succ fuel ih =>
    intro l hl
    cases l with
    | nil => simp [chunksAux]
    | cons x xs =>
      have hlen : (List.drop n (x :: xs)).length ≤ fuel := by
        simp only [List.length_drop]
        have : (x :: xs).length ≤ fuel + 1 := hl
        simp only [List.length_cons] at this
        omega
      calc (chunksAux n (fuel + 1) (x :: xs)).flatten
          = (x :: xs).take n ++ (chunksAux n fuel ((x :: xs).drop n)).flatten := by
            rfl
        _ = (x :: xs).take n ++ (x :: xs).drop n := by rw [ih _ hlen]
        _ = x :: xs := List.take_append_drop n (x :: xs)

/-- The ten-note batches concatenate back to the note list. -/
theorem batchesOf10_flatten {α : Type} (l : List α) :
    (batchesOf10 l).flatten = l :=
  chunksAux_flatten 10 (by omega) l.length l (Nat.le_refl _)

/-- A nonempty list yields at least one batch. -/
theorem batchesOf10_ne_nil {α : Type} (l : List α) (h : l ≠ []) :
    batchesOf10 l ≠ [] := by
  cases l with
  | nil => exact absurd rfl h
  | cons x xs => simp [batchesOf10, chunksAux]

/-- C3: partial-failure accounting — for an export whose root parses, with a
fresh job row and zeroed statistics, the run ends in status `completed`, with
the job row recording `processedItems = n - k` and `failedItems = k`, where `k`
is the number of notes that fail to process; the returned statistics agree. -/
theorem C3_partial_failure_accounting (notes : List EvNote) (st0 : SysState)
    (now : String)
    (hstats : st0.stats = { total := 0, processed := 0, failed := 0, errors := [] })
    (hjp : st0.job.processed_files = 0)
    (hjf : st0.job.failed_files = 0) :
    (processENEXContent (some notes) st0 now).1.job.status = "completed" ∧
    (processENEXContent (some notes) st0 now).1.job.processed_files
      = notes.length - failCount notes now ∧
    (processENEXContent (some notes) st0 now).1.job.failed_files
      = failCount notes now ∧
    (processENEXContent (some notes) st0 now).1.stats.processed
      = notes.length - failCount notes now ∧
    (processENEXContent (some notes) st0 now).1.stats.failed
      = failCount notes now := by
  have hsum : okCount notes now + failCount notes now = notes.length := by
    unfold okCount failCount
    induction notes with
    | nil => rfl
    | cons n ns ih =>
      by_cases h : noteFails n now <;> simp [List.filter_cons, h] <;> omega
  unfold processENEXContent
  set st1 : SysState := { st0 with stats := { st0.stats with total := notes.length } }
    with hst1
  set st2 : SysState := (batchesOf10 notes).foldl (fun s b => runBatch s b now) st1
    with hst2
  have hstats2 : st2.stats.processed = okCount notes now ∧
      st2.stats.failed = failCount notes now ∧
      st2.stats.total = notes.length := by
    have h1 := foldl_runBatch_stats now (batchesOf10 notes) st1
    rw [batchesOf10_flatten] at h1
    have h2 := foldl_runNote_stats now notes st1
    have hp : st1.stats.processed = 0 := by rw [hst1, hstats]
    have hf : st1.stats.failed = 0 := by rw [hst1, hstats]
    have ht : st1.stats.total = notes.length := by rw [hst1, hstats]
    rw [hst2, h1]
    refine ⟨?_, ?_, ?_⟩
    · rw [h2.2.1, hp, Nat.zero_add]
    · rw [h2.2.2.1, hf, Nat.zero_add]
    · rw [h2.1, ht]
  by_cases hnil : notes = []
  · subst hnil
    refine ⟨rfl, ?_, ?_, ?_, ?_⟩ <;>
      simp_all [batchesOf10, chunksAux, failCount, okCount]
  · have hbne := batchesOf10_ne_nil notes hnil
    have hjc := foldl_runBatch_job_counters now (batchesOf10 notes) st1 hbne
    refine ⟨rfl, ?_, ?_, ?_, ?_⟩
    · show st2.job.processed_files = notes.length - failCount notes now
      rw [hjc.1, hstats2.1]
      omega
    · show st2.job.failed_files = failCount notes now
      rw [hjc.2.1, hstats2.2.1]
    · show st2.stats.processed = notes.length - failCount notes now
      rw [hstats2.1]
      omega
    · show st2.stats.failed = failCount notes now
      exact hstats2.2.1

/-- C3 witness: the accounting statement applied to the concrete batch of ten
notes whose fourth is malformed — nine processed, one failed, status
completed. -/
theorem C3_partial_failure_accounting_witness :
    (processENEXContent (some c3Notes) (initState "m3" "T0") "T0").1.job.status
      = "completed" ∧
    (processENEXContent (some c3Notes) (initState "m3" "T0") "T0").1.job.processed_files
      = 9 ∧
    (processENEXContent (some c3Notes) (initState "m3" "T0") "T0").1.job.failed_files
      = 1 ∧
    (processENEXContent (some c3Notes) (initState "m3" "T0") "T0").1.stats.processed
      = 9 ∧
    (processENEXContent (some c3Notes) (initState "m3" "T0") "T0").1.stats.failed
      = 1 := by
  have h := C3_partial_failure_accounting c3Notes (initState "m3" "T0") "T0" rfl rfl rfl
  refine ⟨h.1, ?_, ?_, ?_, ?_⟩
  · rw [h.2.1]; decide
  · rw [h.2.2.1]; decide
  · rw [h.2.2.2.1]; decide
  · rw [h.2.2.2.2]; decide

/-- C4 counterexample: the claim asserts that a per-note failure appends an
entry to the persisted error log, so that querying the job after a run with
one malformed note returns an error log with exactly one entry.  Running the
concrete one-malformed-note export, the note does fail (counted, in-memory
entry pushed) and the job completes — but the persisted `error_log` column is
left empty, so the status query returns no entries. -/
theorem C4_error_log_counterexample :
    (processENEXContent (some [c4Note]) (initState "m4" "T0") "T0").1.stats.failed = 1 ∧
    (processENEXContent (some [c4Note]) (initState "m4" "T0") "T0").1.stats.errors.length
      = 1 ∧
    (processENEXContent (some [c4Note]) (initState "m4" "T0") "T0").1.job.status
      = "completed" ∧
    (processENEXContent (some [c4Note]) (initState "m4" "T0") "T0").1.job.error_log
      = [] := by
  decide

/-- C4 amended: for every note that fails during migration, an entry
`{item, message}` referencing that note is appended to the job's in-memory
error list (returned to the caller), and the job does not escalate to status
failed; the persisted `error_log` column, however, is only written when the
whole run fails structurally, so a completed run leaves it unchanged — the
status query then reports an empty error log, not the per-note entries. -/
theorem C4_error_log_amended (notes : List EvNote) (st0 : SysState) (now : String)
    (herr : st0.stats.errors = []) :
    (processENEXContent (some notes) st0 now).1.stats.errors = errEntries notes now ∧
    (∀ n ∈ notes, noteFails n now = true →
      (n.title, noteErrMsg n now) ∈ (processENEXContent (some notes) st0 now).1.stats.errors) ∧
    (processENEXContent (some notes) st0 now).1.job.status = "completed" ∧
    (processENEXContent (some notes) st0 now).1.job.error_log = st0.job.error_log := by
  unfold processENEXContent
  set st1 : SysState := { st0 with stats := { st0.stats with total := notes.length } }
    with hst1
  set st2 : SysState := (batchesOf10 notes).foldl (fun s b => runBatch s b now) st1
    with hst2
  have herr2 : st2.stats.errors = errEntries notes now := by
    have h1 := foldl_runBatch_stats now (batchesOf10 notes) st1
    rw [batchesOf10_flatten] at h1
    have h2 := (foldl_runNote_stats now notes st1).2.2.2.1
    have he1 : st1.stats.errors = [] := by rw [hst1]; exact herr
    rw [hst2, h1, h2, he1, List.nil_append]
  have hlog : st2.job.error_log = st0.job.error_log := by
    have := (foldl_runBatch_job_rest now (batchesOf10 notes) st1).2.1
    rw [hst2, this, hst1]
  refine ⟨herr2, ?_, rfl, hlog⟩
  intro n hn hf
  show (n.title, noteErrMsg n now) ∈ st2.stats.errors
  rw [herr2]
  unfold errEntries
  rw [List.mem_filterMap]
  refine ⟨n, hn, ?_⟩
  unfold noteFails at hf
  unfold noteErrMsg
  cases hc : processNoteCore n now with
  | error e => rfl
  | ok d => rw [hc] at hf; simp at hf

/-- C4 witness: the amended statement applied to the concrete
one-malformed-note export. -/
theorem C4_error_log_amended_witness :
    (processENEXContent (some [c4Note]) (initState "w4" "T0") "T0").1.stats.errors
      = errEntries [c4Note] "T0" ∧
    (∀ n ∈ [c4Note], noteFails n "T0" = true →
      (n.title, noteErrMsg n "T0") ∈
        (processENEXContent (some [c4Note]) (initState "w4" "T0") "T0").1.stats.errors) ∧
    (processENEXContent (some [c4Note]) (initState "w4" "T0") "T0").1.job.status
      = "completed" ∧
    (processENEXContent (some [c4Note]) (initState "w4" "T0") "T0").1.job.error_log
      = (initState "w4" "T0").job.error_log :=
  C4_error_log_amended [c4Note] (initState "w4" "T0") "T0" rfl

/-! ### Hybrid search lemmas -/

/-- Candidate ids produced by an id-projecting `filterMap` are document ids. -/
theorem mem_fst_filterMap (f : DocRow → Option (Nat × ℚ))
    (hid : ∀ d p, f d = some p → p.1 = d.id) (docs : List DocRow) :
    ∀ x ∈ docs.filterMap f, x.1 ∈ docs.map (fun d => d.id) := by
  intro x hx
  rw [List.mem_filterMap] at hx
  obtain ⟨d, hd, hfd⟩ := hx
  rw [List.mem_map]
  exact ⟨d, hd, (hid d x hfd).symm⟩

/-- Distinct document ids yield distinct candidate ids under an id-projecting
`filterMap`. -/
theorem nodup_fst_filterMap (f : DocRow → Option (Nat × ℚ))
    (hid : ∀ d p, f d = some p → p.1 = d.id) :
    ∀ docs : List DocRow, (docs.map (fun d => d.id)).Nodup →
      ((docs.filterMap f).map Prod.fst).Nodup := by
  intro docs
  induction docs with
  | nil => intro _; simp
  | cons d ds ih =>
    intro hnd
    rw [List.map_cons, List.nodup_cons] at hnd
    cases hf : f d with
    | none =>
      simp only [List.filterMap_cons, hf]
      exact ih hnd.2
    | some p =>
      simp only [List.filterMap_cons, hf, List.map_cons, List.nodup_cons]
      refine ⟨?_, ih hnd.2⟩
      intro hmem
      rw [List.mem_map] at hmem
      obtain ⟨x, hx, hxe⟩ := hmem
      have := mem_fst_filterMap f hid ds x hx
      rw [hxe, hid d p hf] at this
      exact hnd.1 this

/-- With distinct candidate ids, looking up a member's id returns its score. -/
theorem lookupScore_of_mem (l : List (Nat × ℚ))
    (hnd : (l.map Prod.fst).Nodup) (p : Nat × ℚ) (hp : p ∈ l) :
    lookupScore l p.1 = some p.2 := by
  induction l with
  | nil => simp at hp
  | cons q qs ih =>
    rw [List.map_cons, List.nodup_cons] at hnd
    rcases List.mem_cons.mp hp with heq | hmem
    · subst heq
      simp [lookupScore, List.find?_cons_of_pos]
    · have hne : ¬ (q.1 = p.1) := by
        intro h
        exact hnd.1 (h ▸ List.mem_map.mpr ⟨p, hmem, rfl⟩)
      unfold lookupScore
      rw [List.find?_cons_of_neg _ (by simpa using hne)]
      exact ih hnd.2 hmem

/-- Every combined row's score is the weighted blend of the scores found for
its id in the two candidate sets, a missing side contributing zero. -/
theorem combineCTE_score (vw : ℚ) (vs ts : List (Nat × ℚ))
    (hv : (vs.map Prod.fst).Nodup) (ht : (ts.map Prod.fst).Nodup) :
    ∀ p ∈ combineCTE vw vs ts,
      p.2 = ((lookupScore vs p.1).getD 0) * vw
          + ((lookupScore ts p.1).getD 0) * (1 - vw) := by
  intro p hp
  unfold combineCTE at hp
  rcases List.mem_append.mp hp with hl | hr
  · rw [List.mem_map] at hl
    obtain ⟨a, ha, rfl⟩ := hl
    rw [lookupScore_of_mem vs hv a ha]
    rfl
  · rw [List.mem_map] at hr
    obtain ⟨b, hb, rfl⟩ := hr
    have hbm := List.mem_filter.mp hb
    have hnone : lookupScore vs b.1 = none := by
      have := hbm.2
      simpa using this
    rw [hnone, lookupScore_of_mem ts ht b hbm.1]
    rfl

/-- Every combined row's id stems from one of the two candidate sets. -/
theorem combineCTE_mem_src (vw : ℚ) (vs ts : List (Nat × ℚ)) :
    ∀ p ∈ combineCTE vw vs ts,
      (∃ a ∈ vs, a.1 = p.1) ∨ (∃ b ∈ ts, b.1 = p.1) := by
  intro p hp
  unfold combineCTE at hp
  rcases List.mem_append.mp hp with hl | hr
  · rw [List.mem_map] at hl
    obtain ⟨a, ha, rfl⟩ := hl
    exact Or.inl ⟨a, ha, rfl⟩
  · rw [List.mem_map] at hr
    obtain ⟨b, hb, rfl⟩ := hr
    exact Or.inr ⟨b, (List.mem_filter.mp hb).1, rfl⟩

/-- Vector candidates: distinct ids when document ids are distinct. -/
theorem vectorCTE_fst_nodup (P : SearchPrims) (docs : List DocRow) (qEmb : List ℚ)
    (ctx : Option (List String)) (lim : Nat)
    (hnd : (docs.map (fun d => d.id)).Nodup) :
    ((vectorSearchCTE P docs qEmb ctx lim).map Prod.fst).Nodup := by
  unfold vectorSearchCTE
  have hid : ∀ (d : DocRow) (p : Nat × ℚ),
      (match d.embedding with
        | some e =>
          if d.is_active && ctxMatch ctx d then some (d.id, 1 - P.cosDist e qEmb)
          else none
        | none => none) = some p → p.1 = d.id := by
    intro d p hf
    cases he : d.embedding with
    | none => rw [he] at hf; cases hf
    | some e =>
      rw [he] at hf
      dsimp only at hf
      by_cases hc : (d.is_active && ctxMatch ctx d) = true
      · rw [if_pos hc] at hf
        cases hf
        rfl
      · rw [if_neg hc] at hf
        cases hf
  have h1 := nodup_fst_filterMap _ hid docs hnd
  have hperm := (List.perm_insertionSort scoreGE (docs.filterMap (fun d =>
    match d.embedding with
    | some e =>
      if d.is_active && ctxMatch ctx d then some (d.id, 1 - P.cosDist e qEmb)
      else none
    | none => none))).map Prod.fst
  have h2 := hperm.nodup_iff.mpr h1
  rw [List.map_take]
  exact h2.sublist (List.take_sublist _ _)

/-- Text candidates: distinct ids when document ids are distinct. -/
theorem textCTE_fst_nodup (P : SearchPrims) (docs : List DocRow) (q : String)
    (ctx : Option (List String)) (lim : Nat)
    (hnd : (docs.map (fun d => d.id)).Nodup) :
    ((textSearchCTE P docs q ctx lim).map Prod.fst).Nodup := by
  unfold textSearchCTE
  have hid : ∀ (d : DocRow) (p : Nat × ℚ),
      (if P.tsMatch d q && d.is_active && ctxMatch ctx d then some (d.id, P.tsRank d q)
        else none) = some p → p.1 = d.id := by
    intro d p hf
    by_cases hc : (P.tsMatch d q && d.is_active && ctxMatch ctx d) = true
    · rw [if_pos hc] at hf
      cases hf
      rfl
    · rw [if_neg hc] at hf
      cases hf
  have h1 := nodup_fst_filterMap _ hid docs hnd
  rw [List.map_take]
  exact h1.sublist (List.take_sublist _ _)

/-- Vector candidates stem from active, context-matching documents that carry
an embedding. -/
theorem mem_vectorSearchCTE (P : SearchPrims) (docs : List DocRow) (qEmb : List ℚ)
    (ctx : Option (List String)) (lim : Nat) :
    ∀ p ∈ vectorSearchCTE P docs qEmb ctx lim,
      ∃ d ∈ docs, d.id = p.1 ∧ d.is_active = true ∧ ctxMatch ctx d = true ∧
        d.embedding ≠ none := by
  intro p hp
  unfold vectorSearchCTE at hp
  have hp2 := (List.take_sublist _ _).subset hp
  have hp3 := (List.perm_insertionSort scoreGE _).mem_iff.mp hp2
  rw [List.mem_filterMap] at hp3
  obtain ⟨d, hd, hfd⟩ := hp3
  cases he : d.embedding with
  | none => rw [he] at hfd; cases hfd
  | some e =>
    rw [he] at hfd
    dsimp only at hfd
    by_cases hc : (d.is_active && ctxMatch ctx d) = true
    · rw [if_pos hc] at hfd
      cases hfd
      rcases (Bool.and_eq_true _ _).mp hc with ⟨h1, h2⟩
      exact ⟨d, hd, rfl, h1, h2, by rw [he]; exact fun h => Option.noConfusion h⟩
    · rw [if_neg hc] at hfd
      cases hfd

/-- Text candidates stem from active, context-matching documents that match
the full-text query. -/
theorem mem_textSearchCTE (P : SearchPrims) (docs : List DocRow) (q : String)
    (ctx : Option (List String)) (lim : Nat) :
    ∀ p ∈ textSearchCTE P docs q ctx lim,
      ∃ d ∈ docs, d.id = p.1 ∧ d.is_active = true ∧ ctxMatch ctx d = true ∧
        P.tsMatch d q = true := by
  intro p hp
  unfold textSearchCTE at hp
  have hp2 := (List.take_sublist _ _).subset hp
  rw [List.mem_filterMap] at hp2
  obtain ⟨d, hd, hfd⟩ := hp2
  by_cases hc : (P.tsMatch d q && d.is_active && ctxMatch ctx d) = true
  · rw [if_pos hc] at hfd
    cases hfd
    rcases (Bool.and_eq_true _ _).mp hc with ⟨h12, h3⟩
    rcases (Bool.and_eq_true _ _).mp h12 with ⟨h1, h2⟩
    exact ⟨d, hd, rfl, h2, h3, h1⟩
  · rw [if_neg hc] at hfd
    cases hfd

/-- C1: hybrid score merge law — every row of the hybrid result carries the
combined score `vectorScore * vectorWeight + textScore * (1 - vectorWeight)`,
where each side's score is the one recorded for the row's id in the respective
candidate set and a missing side contributes 0; the result is sorted by
descending combined score and truncated to the limit. -/
theorem C1_hybrid_score_merge (P : SearchPrims) (docs : List DocRow) (q : String)
    (qEmb : List ℚ) (ctx : Option (List String)) (vw : ℚ) (lim : Nat)
    (hnd : (docs.map (fun d => d.id)).Nodup) :
    (∀ p ∈ hybridSearchFn P docs q qEmb ctx vw lim,
      p.2 = ((lookupScore (vectorSearchCTE P docs qEmb ctx lim) p.1).getD 0) * vw
          + ((lookupScore (textSearchCTE P docs q ctx lim) p.1).getD 0) * (1 - vw)) ∧
    List.Sorted scoreGE (hybridSearchFn P docs q qEmb ctx vw lim) ∧
    (hybridSearchFn P docs q qEmb ctx vw lim).length ≤ lim := by
  have hv := vectorCTE_fst_nodup P docs qEmb ctx lim hnd
  have ht := textCTE_fst_nodup P docs q ctx lim hnd
  refine ⟨?_, ?_, ?_⟩
  · intro p hp
    unfold hybridSearchFn at hp
    have hp2 := (List.take_sublist _ _).subset hp
    have hp3 := (List.perm_insertionSort scoreGE _).mem_iff.mp hp2
    exact combineCTE_score vw _ _ hv ht p hp3
  · unfold hybridSearchFn
    exact (List.sorted_insertionSort scoreGE _).sublist (List.take_sublist _ _)
  · unfold hybridSearchFn
    exact List.length_take_le _ _

/-- C1 witness: the merge-law statement applied to the two-document scenario of
the claim — the document in both sets (lexical 0.8, vector 0.5, weight 0.6)
scores 0.62 and the lexical-only document (0.8) scores 0.32, and the result is
exactly that descending list. -/
theorem C1_hybrid_score_merge_witness :
    hybridSearchFn demoPrims [docBoth, docTextOnly] "alpha" [1] none (3/5) 10
      = [(1, 31/50), (2, 8/25)] ∧
    ((∀ p ∈ hybridSearchFn demoPrims [docBoth, docTextOnly] "alpha" [1] none (3/5) 10,
      p.2 = ((lookupScore (vectorSearchCTE demoPrims [docBoth, docTextOnly] [1] none 10)
              p.1).getD 0) * (3/5)
          + ((lookupScore (textSearchCTE demoPrims [docBoth, docTextOnly] "alpha" none 10)
              p.1).getD 0) * (1 - 3/5)) ∧
    List.Sorted scoreGE
      (hybridSearchFn demoPrims [docBoth, docTextOnly] "alpha" [1] none (3/5) 10) ∧
    (hybridSearchFn demoPrims [docBoth, docTextOnly] "alpha" [1] none (3/5) 10).length
      ≤ 10) :=
  ⟨by norm_num [hybridSearchFn, vectorSearchCTE, textSearchCTE, combineCTE, lookupScore,
    demoPrims, docBoth, docTextOnly, ctxMatch, List.insertionSort, List.orderedInsert,
    scoreGE, List.find?, List.filterMap, List.filter],
   C1_hybrid_score_merge demoPrims [docBoth, docTextOnly] "alpha" [1] none (3/5) 10
     (by decide)⟩

/-- C8 counterexample: the claim asserts that under an area filter no document
of a different area appears in the hybrid result.  The service drops the area
option before the store call and the SQL `hybrid_search` has no area
parameter: searching with area filter `work` over a single active document of
area `home` returns that document. -/
theorem C8_area_filter_counterexample :
    serviceHybridSearch demoPrims [docTextOnly] "alpha" [1] none (some "work")
        (3/5) 10 = [(2, 8/25)] ∧
    docTextOnly.gtd_area = some "home" ∧
    docTextOnly.gtd_area ≠ some "work" := by
  refine ⟨?_, by decide, by decide⟩
  norm_num [serviceHybridSearch, hybridSearchFn, vectorSearchCTE, textSearchCTE, combineCTE, lookupScore,
    demoPrims, docBoth, docTextOnly, ctxMatch, List.insertionSort, List.orderedInsert,
    scoreGE, List.find?, List.filterMap, List.filter]

/-- C8 amended: every hybrid result row stems from an active document
satisfying the context filter — both candidate sets enforce `is_active` and
the context overlap — but the area filter is not applied on the hybrid path
(the service drops it before the store call), so no constraint relates a
result's area to the requested area filter. -/
theorem C8_hybrid_filter_restriction_amended (P : SearchPrims)
    (docs : List DocRow) (q : String) (qEmb : List ℚ)
    (contexts : Option (List String)) (area : Option String) (vw : ℚ) (lim : Nat) :
    ∀ p ∈ serviceHybridSearch P docs q qEmb contexts area vw lim,
      ∃ d ∈ docs, d.id = p.1 ∧ d.is_active = true ∧ ctxMatch contexts d = true := by
  intro p hp
  unfold serviceHybridSearch hybridSearchFn at hp
  have hp2 := (List.take_sublist _ _).subset hp
  have hp3 := (List.perm_insertionSort scoreGE _).mem_iff.mp hp2
  rcases combineCTE_mem_src _ _ _ p hp3 with ⟨a, ha, hae⟩ | ⟨b, hb, hbe⟩
  · obtain ⟨d, hd, hdi, hact, hctx, _⟩ :=
      mem_vectorSearchCTE P docs qEmb contexts lim a ha
    exact ⟨d, hd, by rw [hdi, hae], hact, hctx⟩
  · obtain ⟨d, hd, hdi, hact, hctx, _⟩ :=
      mem_textSearchCTE P docs q contexts lim b hb
    exact ⟨d, hd, by rw [hdi, hbe], hact, hctx⟩

/-- C8 witness: the amended restriction applied to a concrete search — the
returned row stems from an active document satisfying the (empty) context
filter, even though its area differs from the requested one. -/
theorem C8_hybrid_filter_restriction_amended_witness :
    ∃ d ∈ [docTextOnly], d.id = (2, (8 : ℚ)/25).1 ∧ d.is_active = true ∧
      ctxMatch none d = true :=
  C8_hybrid_filter_restriction_amended demoPrims [docTextOnly] "alpha" [1] none
    (some "work") (3/5) 10 (2, 8/25)
    (by norm_num [serviceHybridSearch, hybridSearchFn, vectorSearchCTE, textSearchCTE, combineCTE, lookupScore,
    demoPrims, docBoth, docTextOnly, ctxMatch, List.insertionSort, List.orderedInsert,
    scoreGE, List.find?, List.filterMap, List.filter])

end GTD
